import Mathlib

/-!
Verification development for the Centrifugo real-time messaging server.

The Go sources are shallowly embedded: pure decision logic (config lookup,
command dispatch, client handlers) becomes Lean functions, and the Redis
data structures touched by the engine (sorted set + hash for presence,
capped list for history) become explicit state records with the Redis
commands modelled as state transformers.  Machine integers are Nat or Int;
JSON values that the code merely stores or forwards are carried as strings.
-/

namespace Centrifugo

/-! ## Channel options and configuration (config.go) -/

/-- Modelled from the spec: the ChannelOptions struct itself is not among
the sources (only its uses are).  The spec lists booleans Watch, Publish,
Anonymous, Presence, JoinLeave, HistoryRecover, HistoryDropInactive and
ints HistorySize, HistoryLifetime. -/
structure ChannelOptions where
  watch : Bool := false
  publish : Bool := false
  anonymous : Bool := false
  presenceEnabled : Bool := false
  joinLeave : Bool := false
  historySize : Int := 0
  historyLifetime : Int := 0
  historyRecover : Bool := false
  historyDropInactive : Bool := false
deriving Repr, DecidableEq

/-- Modelled from the spec: a Namespace couples a name with its own
ChannelOptions block (config.go only uses fields Name and the embedded
ChannelOptions). -/
structure NSpace where
  name : String
  options : ChannelOptions
deriving Repr, DecidableEq

/-- Errors surfaced by the embedded code paths (errors.go is not among the
sources; the constructors mirror the Err* values used by config.go and
client.go). -/
inductive CError
  | invalidClientMessage
  | methodNotFound
  | unauthorized
  | projectNotFound
  | namespaceNotFound
  | invalidToken
  | connectionExpired
  | limitExceeded
  | internalServerError
deriving Repr, DecidableEq

/-- Config: the fields of libcentrifugo's Config struct that the claims
touch (timing knobs held as durations in Go are omitted; they are not part
of any claim). -/
structure Config where
  version : String
  name : String
  channelPrefixStr : String
  maxChannelLength : Int
  privateChannelPfx : String
  namespaceChannelBoundary : String
  userChannelBoundary : String
  userChannelSeparator : String
  clientChannelBoundary : String
  insecure : Bool
  channelOptions : ChannelOptions
  namespaces : List NSpace

/-- Config.initialize builds the helper namespaceMap from the Namespaces
slice: a Go map insert per namespace, so for duplicate names the later
entry wins.  Modelled as an association list where the most recent insert
is found first by lookup. -/
def namespaceMap (c : Config) : List (String × NSpace) :=
  c.namespaces.foldl (fun m n => (n.name, n) :: m) []

/-- Config.channelOpts: empty namespace key returns the config's own
ChannelOptions; otherwise the namespace map is consulted and a missing
namespace is ErrNamespaceNotFound. -/
def channelOpts (c : Config) (nk : String) : Except CError ChannelOptions :=
  if nk = "" then
    .ok c.channelOptions
  else
    match (namespaceMap c).lookup nk with
    | some n => .ok n.options
    | none => .error .namespaceNotFound

def defaultName : String := "libcentrifugo"

def defaultChannelPrefixVal : String := "libcentrifugo"

/-- DefaultConfig from config.go (fields modelled by Config; the Go struct
leaves ChannelOptions and Namespaces at their zero values). -/
def DefaultConfig : Config :=
  { version := "-"
    name := defaultName
    channelPrefixStr := defaultChannelPrefixVal
    maxChannelLength := 255
    privateChannelPfx := "$"
    namespaceChannelBoundary := ":"
    clientChannelBoundary := "&"
    userChannelBoundary := "#"
    userChannelSeparator := ","
    insecure := false
    channelOptions := {}
    namespaces := [] }

/-- A configuration default value registered with viper. -/
inductive VDefault
  | s (v : String)
  | i (v : Int)
  | b (v : Bool)
deriving Repr, DecidableEq

/-- The viper.SetDefault calls of Main (main.go), in program order. -/
def viperDefaults : List (String × VDefault) :=
  [ ("gomaxprocs", .i 0)
  , ("debug", .b false)
  , ("prefix", .s "")
  , ("web", .b false)
  , ("web_path", .s "")
  , ("admin_password", .s "")
  , ("admin_secret", .s "")
  , ("web_password", .s "")
  , ("web_secret", .s "")
  , ("max_channel_length", .i 255)
  , ("channel_prefix", .s "centrifugo")
  , ("node_ping_interval", .i 3)
  , ("message_send_timeout", .i 0)
  , ("ping_interval", .i 25)
  , ("node_metrics_interval", .i 60)
  , ("stale_connection_close_delay", .i 25)
  , ("expired_connection_close_delay", .i 25)
  , ("client_channel_limit", .i 100)
  , ("client_request_max_size", .i 65536)
  , ("client_queue_max_size", .i 10485760)
  , ("client_queue_initial_capacity", .i 2)
  , ("presence_ping_interval", .i 25)
  , ("presence_expire_interval", .i 60)
  , ("private_channel_prefix", .s "$")
  , ("namespace_channel_boundary", .s ":")
  , ("user_channel_boundary", .s "#")
  , ("user_channel_separator", .s ",")
  , ("client_channel_boundary", .s "&")
  , ("sockjs_url", .s "//cdn.jsdelivr.net/sockjs/1.1/sockjs.min.js")
  , ("secret", .s "")
  , ("connection_lifetime", .i 0)
  , ("watch", .b false)
  , ("publish", .b false)
  , ("anonymous", .b false)
  , ("presence", .b false)
  , ("history_size", .i 0)
  , ("history_lifetime", .i 0)
  , ("recover", .b false)
  , ("history_drop_inactive", .b false)
  , ("namespaces", .s "") ]

/-! ## Redis engine: presence (redisengine.go addPresence / removePresence / presence)

Each channel owns two Redis keys: a sorted set mapping connection uid to
its absolute expiration second, and a hash mapping uid to marshalled
ClientInfo.  Times are Unix seconds as Nat (time.Now().Unix() is
nonnegative throughout the server's life).  Key-level TTL set by EXPIRE is
modelled as an absolute deadline; a key whose deadline has passed behaves
as absent, which Redis realises by deleting it. -/

/-- State of the presence keys of one channel. -/
structure RPresence where
  zset : List (String × Nat)
  hash : List (String × String)
  zsetDeadline : Option Nat
  hashDeadline : Option Nat
deriving Repr, DecidableEq

def emptyPresence : RPresence := ⟨[], [], none, none⟩

/-- Whether a key deadline has passed at the given time. -/
def deadlinePassed (now : Nat) : Option Nat → Bool
  | none => false
  | some d => decide (d ≤ now)

/-- Drop any presence key whose TTL has elapsed (Redis deletes expired
keys before a command observes them). -/
def purgeP (now : Nat) (st : RPresence) : RPresence :=
  { zset := if deadlinePassed now st.zsetDeadline then [] else st.zset
    zsetDeadline := if deadlinePassed now st.zsetDeadline then none else st.zsetDeadline
    hash := if deadlinePassed now st.hashDeadline then [] else st.hash
    hashDeadline := if deadlinePassed now st.hashDeadline then none else st.hashDeadline }

/-- HSET / ZADD field update: replaces any previous entry for the key. -/
def assocSet {β : Type} (k : String) (v : β) (l : List (String × β)) : List (String × β) :=
  (k, v) :: l.filter (fun p => p.1 != k)

/-- RedisEngine.addPresence: one MULTI pipeline of
ZADD set (now + presenceExpireInterval) uid; HSET hash uid info;
EXPIRE set presenceExpireInterval; EXPIRE hash presenceExpireInterval. -/
def addPresence (now interval : Nat) (uid info : String) (st : RPresence) : RPresence :=
  let st' := purgeP now st
  { zset := assocSet uid (now + interval) st'.zset
    hash := assocSet uid info st'.hash
    zsetDeadline := some (now + interval)
    hashDeadline := some (now + interval) }

/-- RedisEngine.removePresence: one MULTI pipeline of HDEL and ZREM. -/
def removePresence (now : Nat) (uid : String) (st : RPresence) : RPresence :=
  let st' := purgeP now st
  { st' with
    zset := st'.zset.filter (fun p => p.1 != uid)
    hash := st'.hash.filter (fun p => p.1 != uid) }

/-- RedisEngine.presence: ZRANGEBYSCORE set 0 now collects the expired
uids; when non-empty a MULTI pipeline of ZREMRANGEBYSCORE set 0 now plus
one HDEL per expired uid prunes them; finally HGETALL hash is returned.
Result: the returned uid-to-info map and the state after pruning. -/
def presence (now : Nat) (st : RPresence) : List (String × String) × RPresence :=
  let st' := purgeP now st
  let expiredKeys := (st'.zset.filter (fun p => decide (p.2 ≤ now))).map (fun p => p.1)
  if expiredKeys.isEmpty then
    (st'.hash, st')
  else
    let st'' := { st' with
      zset := st'.zset.filter (fun p => !(decide (p.2 ≤ now)))
      hash := st'.hash.filter (fun p => !(expiredKeys.contains p.1)) }
    (st''.hash, st'')

/-! ## Redis engine: history (redisengine.go addHistory / history) -/

/-- State of the history list key of one channel.  An empty list stands
for an absent key (Redis never keeps empty lists). -/
structure RHistory where
  list : List String
  deadline : Option Nat
deriving Repr, DecidableEq

def emptyHistory : RHistory := ⟨[], none⟩

def purgeH (now : Nat) (st : RHistory) : RHistory :=
  if deadlinePassed now st.deadline then ⟨[], none⟩ else st

/-- addHistoryOpts from the engine call: Size and Lifetime come from the
channel's HistorySize / HistoryLifetime options, DropInactive from the
HistoryDropInactive flag. -/
structure addHistoryOpts where
  Size : Int
  Lifetime : Nat
  DropInactive : Bool
deriving Repr, DecidableEq

/-- Redis LRANGE key 0 stop and the keep-range of LTRIM key 0 stop:
a negative stop counts from the end of the list (-1 is the last element);
an empty resulting range yields the empty list. -/
def redisRange0 {α : Type} (stop : Int) (l : List α) : List α :=
  let e : Int := if stop < 0 then (l.length : Int) + stop else stop
  if e < 0 then [] else l.take (e + 1).toNat

/-- RedisEngine.addHistory: one MULTI pipeline of LPUSH (LPUSHX when
DropInactive, a no-op on an absent key), LTRIM key 0 (Size-1), and
EXPIRE key Lifetime (LTRIM and EXPIRE are no-ops on an absent key). -/
def addHistory (now : Nat) (message : String) (opts : addHistoryOpts) (st : RHistory) : RHistory :=
  let st' := purgeH now st
  let pushed :=
    if opts.DropInactive then
      (if st'.list.isEmpty then st'.list else message :: st'.list)
    else
      message :: st'.list
  let trimmed := redisRange0 (opts.Size - 1) pushed
  { list := trimmed
    deadline := if trimmed.isEmpty then none else some (now + opts.Lifetime) }

/-- RedisEngine.history: rangeBound is Limit-1 when Limit is positive and
-1 (the whole list) otherwise; returns LRANGE key 0 rangeBound. -/
def history (now : Nat) (limit : Int) (st : RHistory) : List String :=
  let st' := purgeH now st
  let rangeBound : Int := if limit > 0 then limit - 1 else -1
  redisRange0 rangeBound st'.list

/-! ## Client connection (client.go)

The client handlers are pure state transformers over the client record and
an application record.  The application methods the handlers call
(getProjectByKey, addSubscription, removeSubscription, checkClientToken,
publishClientMessage, getPresence, getHistory) live in application files
that are not among the sources; they are modelled from the spec as fields
of AppState, with behaviour abstracted by oracles where the spec leaves it
open.  JSON payloads that the handlers only store or forward (info, data)
are carried as strings. -/

structure Project where
  secret : String
deriving Repr, DecidableEq

/-- connectClientCommand: project key, user id, timestamp string, info
JSON string and HMAC token. -/
structure connectClientCommand where
  project : String
  user : String
  timestamp : String
  info : String
  token : String
deriving Repr, DecidableEq

/-- refreshClientCommand: same shape as connect. -/
structure refreshClientCommand where
  project : String
  user : String
  timestamp : String
  info : String
  token : String
deriving Repr, DecidableEq

structure subscribeClientCommand where
  channel : String
  client : String
  info : String
  sign : String
deriving Repr, DecidableEq

structure unsubscribeClientCommand where
  channel : String
deriving Repr, DecidableEq

structure publishClientCommand where
  channel : String
  data : String
deriving Repr, DecidableEq

structure presenceClientCommand where
  channel : String
deriving Repr, DecidableEq

structure historyClientCommand where
  channel : String
deriving Repr, DecidableEq

/-- The params payload of a client command.  In Go this is raw JSON that
each handler decodes with mapstructure; here the decodable shapes are the
constructors, an empty object decodes into any command type at its zero
values, and malformed params fail every decode. -/
inductive Params
  | connectP (c : connectClientCommand)
  | refreshP (c : refreshClientCommand)
  | subscribeP (c : subscribeClientCommand)
  | unsubscribeP (c : unsubscribeClientCommand)
  | publishP (c : publishClientCommand)
  | presenceP (c : presenceClientCommand)
  | historyP (c : historyClientCommand)
  | emptyP
  | malformedP
deriving Repr, DecidableEq

/-- clientCommand: method name plus params. -/
structure clientCommand where
  method : String
  params : Params
deriving Repr, DecidableEq

def decodeConnect : Params → Option connectClientCommand
  | .connectP c => some c
  | .emptyP => some ⟨"", "", "", "", ""⟩
  | _ => none

def decodeRefresh : Params → Option refreshClientCommand
  | .refreshP c => some c
  | .emptyP => some ⟨"", "", "", "", ""⟩
  | _ => none

def decodeSubscribe : Params → Option subscribeClientCommand
  | .subscribeP c => some c
  | .emptyP => some ⟨"", "", "", ""⟩
  | _ => none

def decodeUnsubscribe : Params → Option unsubscribeClientCommand
  | .unsubscribeP c => some c
  | .emptyP => some ⟨""⟩
  | _ => none

def decodePublish : Params → Option publishClientCommand
  | .publishP c => some c
  | .emptyP => some ⟨"", ""⟩
  | _ => none

def decodePresence : Params → Option presenceClientCommand
  | .presenceP c => some c
  | .emptyP => some ⟨""⟩
  | _ => none

def decodeHistory : Params → Option historyClientCommand
  | .historyP c => some c
  | .emptyP => some ⟨""⟩
  | _ => none

/-- The body shapes assigned to response.Body by the handlers. -/
inductive RespBody
  | nilBody
  | strBody (s : String)
  | connectBody (client : String) (expired : Bool)
  | refreshBody
  | channelBody (channel : String)
  | publishBody (channel : String) (status : Bool)
  | presenceBody (data : List (String × String))
  | historyBody (data : List String)
deriving Repr, DecidableEq

/-- response: method name, body and command-local error. -/
structure Response where
  method : String
  body : RespBody
  error : Option CError
deriving Repr, DecidableEq

def newResponse (method : String) : Response :=
  { method := method, body := .nilBody, error := none }

/-- Client connection state (the fields of the client struct that the
handlers read or write; the default info JSON value is carried as the raw
string it was parsed from). -/
structure Client where
  uid : String
  project : String
  user : String
  timestamp : Int
  info : String
  isAuthenticated : Bool
  channels : List String
deriving Repr, DecidableEq

/-- Application state and oracles.  projects backs getProjectByKey; book
is the subscription book (Modelled from the spec: AddSub / RemoveSub
maintain channel-to-clients sets); maxChannelLength is the viper
max_channel_length setting read by handleSubscribe; checkToken models
checkClientToken (secret, projectKey, user, timestamp, info, token);
bookFail abstracts engine failures of add/removeSubscription; publishFail
abstracts publishClientMessage failures; presenceRes and historyRes model
getPresence / getHistory results (none meaning an engine error). -/
structure AppState where
  projects : List (String × Project)
  book : List (String × String × String)
  maxChannelLength : Int
  checkToken : String → String → String → String → String → String → Bool
  bookFail : String → String → Bool
  publishFail : String → String → Bool
  presenceRes : String → String → Option (List (String × String))
  historyRes : String → String → Option (List String)

/-- Modelled from the spec: Application.addSubscription is not among the
sources; the spec's subscription book gains a (project, channel, client)
entry, and a possible engine failure is abstracted by the bookFail
oracle. -/
def addSubscription (app : AppState) (pk ch uid : String) : Except Unit AppState :=
  if app.bookFail pk ch then .error ()
  else .ok { app with book := (pk, ch, uid) :: app.book }

/-- Modelled from the spec: Application.removeSubscription, dual of
addSubscription. -/
def removeSubscription (app : AppState) (pk ch uid : String) : Except Unit AppState :=
  if app.bookFail pk ch then .error ()
  else .ok { app with book := app.book.filter (fun e => e != (pk, ch, uid)) }

/-- client.handleConnect: an already-authenticated client gets its uid
back immediately; otherwise params are decoded, an empty info string is
replaced by the empty JSON object, the project is looked up, the token is
verified against the substituted info, the timestamp is parsed, and the
client becomes authenticated with fresh channel set. -/
def handleConnect (app : AppState) (c : Client) (ps : Params) :
    Except CError (Response × Client × AppState) :=
  let resp := newResponse "connect"
  if c.isAuthenticated then
    .ok ({ resp with body := .strBody c.uid }, c, app)
  else
    match decodeConnect ps with
    | none => .error .invalidClientMessage
    | some cmd =>
      let info := if cmd.info = "" then "\x7b\x7d" else cmd.info
      match app.projects.lookup cmd.project with
      | none => .error .projectNotFound
      | some project =>
        if app.checkToken project.secret cmd.project cmd.user cmd.timestamp info cmd.token
        then
          match cmd.timestamp.toInt? with
          | none => .error .invalidClientMessage
          | some ts =>
            let c' := { c with
              timestamp := ts
              user := cmd.user
              project := cmd.project
              isAuthenticated := true
              info := info
              channels := [] }
            .ok ({ resp with body := .connectBody c.uid false }, c', app)
        else .error .invalidToken

/-- client.handleRefresh: decode, empty-info substitution, project lookup,
token check, timestamp parse, then the client's timestamp is updated (the
expiry check is the stubbed always-true branch of the Go code). -/
def handleRefresh (app : AppState) (c : Client) (ps : Params) :
    Except CError (Response × Client × AppState) :=
  let resp := newResponse "refresh"
  match decodeRefresh ps with
  | none => .error .invalidClientMessage
  | some cmd =>
    let info := if cmd.info = "" then "\x7b\x7d" else cmd.info
    match app.projects.lookup cmd.project with
    | none => .error .projectNotFound
    | some project =>
      if app.checkToken project.secret cmd.project cmd.user cmd.timestamp info cmd.token
      then
        match cmd.timestamp.toInt? with
        | none => .error .invalidClientMessage
        | some ts =>
          .ok ({ resp with body := .refreshBody }, { c with timestamp := ts }, app)
      else .error .invalidToken

/-- Go map-style set insert into the client's channels set. -/
def insertChannel (ch : String) (l : List String) : List String :=
  if l.contains ch then l else ch :: l

/-- client.handleSubscribe: decode, project lookup, empty-channel check,
channel length check against max_channel_length (an over-long channel is
answered with ErrLimitExceeded set on the response and nothing else
happens), then the subscription book and the client's channel set gain
the channel. -/
def handleSubscribe (app : AppState) (c : Client) (ps : Params) :
    Except CError (Response × Client × AppState) :=
  let resp := newResponse "subscribe"
  match decodeSubscribe ps with
  | none => .error .invalidClientMessage
  | some cmd =>
    match app.projects.lookup c.project with
    | none => .error .projectNotFound
    | some _project =>
      if cmd.channel = "" then .error .invalidClientMessage
      else if (cmd.channel.length : Int) > app.maxChannelLength then
        .ok ({ resp with error := some .limitExceeded }, c, app)
      else
        let resp := { resp with body := .channelBody cmd.channel }
        match addSubscription app c.project cmd.channel c.uid with
        | .error _ => .error .internalServerError
        | .ok app' =>
          .ok (resp, { c with channels := insertChannel cmd.channel c.channels }, app')

/-- client.handleUnsubscribe. -/
def handleUnsubscribe (app : AppState) (c : Client) (ps : Params) :
    Except CError (Response × Client × AppState) :=
  let resp := newResponse "unsubscribe"
  match decodeUnsubscribe ps with
  | none => .error .invalidClientMessage
  | some cmd =>
    match app.projects.lookup c.project with
    | none => .error .projectNotFound
    | some _project =>
      if cmd.channel = "" then .error .invalidClientMessage
      else
        let resp := { resp with body := .channelBody cmd.channel }
        match removeSubscription app c.project cmd.channel c.uid with
        | .error _ => .error .internalServerError
        | .ok app' =>
          let c' :=
            if c.channels.contains cmd.channel then
              { c with channels := c.channels.filter (fun x => x != cmd.channel) }
            else c
          .ok (resp, c', app')

/-- client.handlePublish: a publishClientMessage failure is reported as
ErrInternalServerError on the response (body left nil); success reports
status true. -/
def handlePublish (app : AppState) (c : Client) (ps : Params) :
    Except CError (Response × Client × AppState) :=
  let resp := newResponse "publish"
  match decodePublish ps with
  | none => .error .invalidClientMessage
  | some cmd =>
    match app.projects.lookup c.project with
    | none => .error .projectNotFound
    | some _project =>
      if app.publishFail cmd.channel cmd.data then
        .ok ({ resp with error := some .internalServerError }, c, app)
      else
        .ok ({ resp with body := .publishBody cmd.channel true }, c, app)

/-- client.handlePing: body is the string pong; params are ignored. -/
def handlePing (app : AppState) (c : Client) (_ps : Params) :
    Except CError (Response × Client × AppState) :=
  .ok ({ newResponse "ping" with body := .strBody "pong" }, c, app)

/-- client.handlePresence. -/
def handlePresence (app : AppState) (c : Client) (ps : Params) :
    Except CError (Response × Client × AppState) :=
  let resp := newResponse "presence"
  match decodePresence ps with
  | none => .error .invalidClientMessage
  | some cmd =>
    match app.projects.lookup c.project with
    | none => .error .projectNotFound
    | some _project =>
      match app.presenceRes c.project cmd.channel with
      | none => .ok ({ resp with error := some .internalServerError }, c, app)
      | some data => .ok ({ resp with body := .presenceBody data }, c, app)

/-- client.handleHistory. -/
def handleHistory (app : AppState) (c : Client) (ps : Params) :
    Except CError (Response × Client × AppState) :=
  let resp := newResponse "history"
  match decodeHistory ps with
  | none => .error .invalidClientMessage
  | some cmd =>
    match app.projects.lookup c.project with
    | none => .error .projectNotFound
    | some _project =>
      match app.historyRes c.project cmd.channel with
      | none => .ok ({ resp with error := some .internalServerError }, c, app)
      | some data => .ok ({ resp with body := .historyBody data }, c, app)

/-- client.handleCommand: any method other than connect on a client that
has not authenticated is rejected with ErrUnauthorized before dispatch;
otherwise the Go switch dispatches on the method name, with unknown
methods answered by ErrMethodNotFound. -/
def handleCommand (app : AppState) (c : Client) (cmd : clientCommand) :
    Except CError (Response × Client × AppState) :=
  if cmd.method ≠ "connect" ∧ c.isAuthenticated = false then .error .unauthorized
  else if cmd.method = "connect" then handleConnect app c cmd.params
  else if cmd.method = "refresh" then handleRefresh app c cmd.params
  else if cmd.method = "subscribe" then handleSubscribe app c cmd.params
  else if cmd.method = "unsubscribe" then handleUnsubscribe app c cmd.params
  else if cmd.method = "publish" then handlePublish app c cmd.params
  else if cmd.method = "ping" then handlePing app c cmd.params
  else if cmd.method = "presence" then handlePresence app c cmd.params
  else if cmd.method = "history" then handleHistory app c cmd.params
  else .error .methodNotFound

/-- client.handleCommands: runs the commands in order, aborting on the
first command-level error (in which case nothing is sent back); on success
the collected responses are marshalled as one JSON array and sent. -/
def handleCommands : AppState → Client → List clientCommand →
    Except CError (List Response × Client × AppState)
  | app, c, [] => .ok ([], c, app)
  | app, c, cmd :: rest =>
    match handleCommand app c cmd with
    | .error e => .error e
    | .ok (resp, c', app') =>
      match handleCommands app' c' rest with
      | .error e => .error e
      | .ok (resps, c'', app'') => .ok (resp :: resps, c'', app'')

/-- An inbound transport frame after JSON parsing: a single command
object, an array of command objects, or anything else (which
getMessageType rejects as ErrInvalidClientMessage). -/
inductive ClientMessage
  | object (cmd : clientCommand)
  | array (cmds : List clientCommand)
  | other
deriving Repr, DecidableEq

/-- getCommandsFromClientMessage: a single object becomes a one-element
command list; an array is taken as is. -/
def getCommandsFromClientMessage : ClientMessage → Except CError (List clientCommand)
  | .object cmd => .ok [cmd]
  | .array cmds => .ok cmds
  | .other => .error .invalidClientMessage

/-- client.handleMessage: classify the frame, extract the commands, run
them; the ok payload is the response array that session.Send serialises
(always a JSON array, also for a single-object frame). -/
def handleMessage (app : AppState) (c : Client) (m : ClientMessage) :
    Except CError (List Response × Client × AppState) :=
  match getCommandsFromClientMessage m with
  | .error e => .error e
  | .ok cmds => handleCommands app c cmds

/-! ## Concrete instances used by witnesses and counterexamples -/

/-- A concrete application state: one project, permissive oracles. -/
def appEx : AppState :=
  { projects := [("p", ⟨"secret"⟩)]
    book := []
    maxChannelLength := 255
    checkToken := fun _ _ _ _ _ _ => true
    bookFail := fun _ _ => false
    publishFail := fun _ _ => false
    presenceRes := fun _ _ => some []
    historyRes := fun _ _ => some [] }

/-- appEx with a tiny channel-length limit. -/
def appSmall : AppState := { appEx with maxChannelLength := 2 }

/-- A freshly created, not yet authenticated client. -/
def clientNew : Client :=
  { uid := "uid-1", project := "", user := "", timestamp := 0, info := ""
    isAuthenticated := false, channels := [] }

/-- A client that completed connect in project p. -/
def clientAuth : Client :=
  { uid := "uid-2", project := "p", user := "42", timestamp := 0, info := "\x7b\x7d"
    isAuthenticated := true, channels := [] }

/-- A config with one namespace, used to exercise channelOpts. -/
def cfgEx : Config :=
  { DefaultConfig with namespaces := [⟨"public", { publish := true }⟩] }

/-! ## Theorems -/

/-- A successful association-list lookup yields a member pair. -/
theorem lookup_mem {β : Type} {k : String} {v : β} :
    ∀ {l : List (String × β)}, l.lookup k = some v → (k, v) ∈ l := by
  intro l
  induction l with
  | nil => intro h; simp [List.lookup] at h
  | cons p rest ih =>
    intro h
    obtain ⟨a, b⟩ := p
    rw [List.lookup] at h
    cases hk : (k == a) with
    | true =>
      simp only [hk] at h
      obtain rfl := eq_of_beq hk
      obtain rfl := Option.some.inj h
      exact List.mem_cons_self ..
    | false =>
      simp only [hk] at h
      exact List.mem_cons_of_mem _ (ih h)

/-- Keep-range of LTRIM 0 (-1) and LRANGE 0 (-1): the whole list. -/
theorem redisRange0_neg_one {α : Type} (l : List α) : redisRange0 (-1) l = l := by
  unfold redisRange0
  cases l with
  | nil => simp
  | cons a as =>
    have h0 : ¬ (((a :: as).length : Int) + (-1) < 0) := by
      simp only [List.length_cons]
      omega
    have h1 : (((a :: as).length : Int) + (-1) + 1).toNat = (a :: as).length := by
      omega
    have h2 : (if (-1 : Int) < 0 then ((a :: as).length : Int) + (-1) else -1)
        = ((a :: as).length : Int) + (-1) := if_pos (by norm_num)
    rw [h2, if_neg h0, h1, List.take_length]

/-- Keep-range of LTRIM 0 stop and LRANGE 0 stop for a nonnegative stop:
the first stop+1 elements. -/
theorem redisRange0_nonneg {α : Type} (stop : Int) (l : List α) (h : 0 ≤ stop) :
    redisRange0 stop l = l.take (stop + 1).toNat := by
  unfold redisRange0
  rw [if_neg (by omega), if_neg (by omega)]

/-- C1: addPresence stores the entry under expireAt = now plus the
presence expire interval (ZADD score and HSET value retrievable at the
uid), and presence prunes by score before returning, so no entry of the
returned map carries an expireAt that is at most the read time. -/
theorem presence_never_returns_expired :
    (∀ now interval uid info st,
      ((addPresence now interval uid info st).zset.lookup uid = some (now + interval)) ∧
      ((addPresence now interval uid info st).hash.lookup uid = some info)) ∧
    (∀ st now uid info s,
      (uid, info) ∈ (presence now st).1 →
      ((purgeP now st).zset.lookup uid = some s) →
      now < s) := by
  constructor
  · intro now interval uid info st
    exact ⟨by simp [addPresence, assocSet, List.lookup],
      by simp [addPresence, assocSet, List.lookup]⟩
  · intro st now uid info s hmem hlk
    have hzmem : (uid, s) ∈ (purgeP now st).zset := lookup_mem hlk
    by_contra hns
    have hsle : s ≤ now := Nat.le_of_not_lt hns
    have hfmem : (uid, s) ∈ (purgeP now st).zset.filter (fun p => decide (p.2 ≤ now)) :=
      List.mem_filter.2 ⟨hzmem, by simpa using hsle⟩
    have hkmem : uid ∈ ((purgeP now st).zset.filter
        (fun p => decide (p.2 ≤ now))).map (fun p => p.1) :=
      List.mem_map.2 ⟨(uid, s), hfmem, rfl⟩
    simp only [presence] at hmem
    split at hmem
    · next he =>
      rw [List.isEmpty_iff] at he
      rw [he] at hkmem
      exact absurd hkmem (List.not_mem_nil uid)
    · next he =>
      dsimp only at hmem
      have hcf := List.of_mem_filter hmem
      simp only [Bool.not_eq_true'] at hcf
      have helem : List.elem uid (((purgeP now st).zset.filter
          (fun p => decide (p.2 ≤ now))).map (fun p => p.1)) = false := hcf
      exact Bool.noConfusion ((List.elem_iff.mpr hkmem).symm.trans helem)

/-- Witness for C1 at a concrete run: add at time 0 with a 60 second
interval, read at time 10. -/
theorem presence_never_returns_expired_witness :
    ("u", "i") ∈ (presence 10 (addPresence 0 60 "u" "i" emptyPresence)).1 ∧ 10 < 60 :=
  ⟨by decide,
    presence_never_returns_expired.2 (addPresence 0 60 "u" "i" emptyPresence)
      10 "u" "i" 60 (by decide) (by decide)⟩

/-- Counterexample to C2 as stated: with DropInactive set and no existing
history list, the LPUSHX writes nothing, so after the publish the head of
the history list is not the published message. -/
theorem addHistory_dropinactive_counterexample :
    (addHistory 0 "m" ⟨5, 60, true⟩ emptyHistory).list.head? ≠ some "m" := by decide

/-- C2 (amended): addHistory runs LPUSH (LPUSHX when DropInactive), LTRIM
0 size-1, EXPIRE lifetime in one pipeline; afterwards the history holds at
most size entries, and its head is the published message whenever
DropInactive is unset or the list already existed (under DropInactive an
absent list stays absent). -/
theorem addHistory_bounded_head (now lifetime : Nat) (size : Int) (drop : Bool)
    (message : String) (st : RHistory) (hsize : 1 ≤ size) :
    (((addHistory now message ⟨size, lifetime, drop⟩ st).list.length : Int) ≤ size) ∧
    ((drop = false ∨ (purgeH now st).list ≠ []) →
      (addHistory now message ⟨size, lifetime, drop⟩ st).list.head? = some message) := by
  have hkey : ∀ l : List String,
      (((redisRange0 (size - 1) (message :: l)).length : Int) ≤ size) ∧
      (redisRange0 (size - 1) (message :: l)).head? = some message := by
    intro l
    rw [redisRange0_nonneg (size - 1) (message :: l) (by omega)]
    have h2 : (size - 1 + 1).toNat = size.toNat := by omega
    rw [h2]
    obtain ⟨k, hk⟩ : ∃ k, size.toNat = k + 1 := ⟨size.toNat - 1, by omega⟩
    rw [hk, List.take_succ_cons]
    refine ⟨?_, rfl⟩
    simp only [List.length_cons, List.length_take]
    omega
  cases hdrop : drop with
  | false =>
    simp only [addHistory, Bool.false_eq_true, if_false, ite_false]
    exact ⟨(hkey _).1, fun _ => (hkey _).2⟩
  | true =>
    cases hl : (purgeH now st).list with
    | nil =>
      constructor
      · simp only [addHistory, hl, List.isEmpty_nil, if_true, ite_true]
        rw [redisRange0_nonneg (size - 1) [] (by omega)]
        simp only [List.take_nil, List.length_nil]
        omega
      · intro hcase
        rcases hcase with h1 | h2
        · exact Bool.noConfusion h1
        · exact absurd rfl h2
    | cons a as =>
      simp only [addHistory, hl, List.isEmpty_cons, if_false, ite_false]
      exact ⟨(hkey _).1, fun _ => (hkey _).2⟩

/-- Witness for C2's amended theorem: publishing onto a one-element list
with size 2 keeps the published message at the head. -/
theorem addHistory_bounded_head_witness :
    (addHistory 0 "m2" ⟨2, 60, false⟩ ⟨["m1"], some 60⟩).list.head? = some "m2" :=
  (addHistory_bounded_head 0 60 2 false "m2" ⟨["m1"], some 60⟩ (by decide)).2
    (Or.inl rfl)

/-- C9: the engine history read with limit 0 returns the whole stored
list (LRANGE 0 -1), and with a positive limit n returns the first n
stored messages (LRANGE 0 n-1) — the newest first, since addHistory
pushes at the head. -/
theorem history_limit_semantics (now : Nat) (limit : Int) (st : RHistory) :
    (limit = 0 → history now limit st = (purgeH now st).list) ∧
    (0 < limit → history now limit st = (purgeH now st).list.take limit.toNat) := by
  constructor
  · intro h0
    subst h0
    simp only [history]
    rw [if_neg (by omega)]
    exact redisRange0_neg_one _
  · intro hpos
    simp only [history]
    rw [if_pos hpos, redisRange0_nonneg _ _ (by omega)]
    congr 1
    omega

/-- Witness for C9 at a concrete three-element history. -/
theorem history_limit_semantics_witness :
    history 5 0 ⟨["c", "b", "a"], none⟩ = (purgeH 5 ⟨["c", "b", "a"], none⟩).list ∧
    history 5 2 ⟨["c", "b", "a"], none⟩ =
      (purgeH 5 ⟨["c", "b", "a"], none⟩).list.take (2 : Int).toNat :=
  ⟨(history_limit_semantics 5 0 ⟨["c", "b", "a"], none⟩).1 rfl,
    (history_limit_semantics 5 2 ⟨["c", "b", "a"], none⟩).2 (by decide)⟩

/-- C8: the default configuration has PrivateChannelPrefix dollar,
NamespaceChannelBoundary colon, UserChannelBoundary hash,
UserChannelSeparator comma, ClientChannelBoundary ampersand,
MaxChannelLength 255; the viper defaults repeat the delimiters and set
client_queue_max_size to 10485760 bytes and client_request_max_size to
65536 bytes. -/
theorem default_config_and_viper_defaults :
    DefaultConfig.privateChannelPfx = "$" ∧
    DefaultConfig.namespaceChannelBoundary = ":" ∧
    DefaultConfig.userChannelBoundary = "#" ∧
    DefaultConfig.userChannelSeparator = "," ∧
    DefaultConfig.clientChannelBoundary = "&" ∧
    DefaultConfig.maxChannelLength = 255 ∧
    viperDefaults.lookup "private_channel_prefix" = some (.s "$") ∧
    viperDefaults.lookup "namespace_channel_boundary" = some (.s ":") ∧
    viperDefaults.lookup "user_channel_boundary" = some (.s "#") ∧
    viperDefaults.lookup "user_channel_separator" = some (.s ",") ∧
    viperDefaults.lookup "client_channel_boundary" = some (.s "&") ∧
    viperDefaults.lookup "max_channel_length" = some (.i 255) ∧
    viperDefaults.lookup "client_queue_max_size" = some (.i 10485760) ∧
    viperDefaults.lookup "client_request_max_size" = some (.i 65536) :=
  ⟨rfl, rfl, rfl, rfl, rfl, rfl, rfl, rfl, rfl, rfl, rfl, rfl, rfl, rfl⟩

/-- C3: channel-options resolution — the empty namespace key yields the
config's default ChannelOptions; a non-empty key found in the namespace
map yields that namespace's options; a non-empty absent key fails with
ErrNamespaceNotFound, and that is the only error channelOpts produces. -/
theorem channelOpts_resolution (c : Config) :
    (channelOpts c "" = .ok c.channelOptions) ∧
    (∀ nk n, nk ≠ "" → (namespaceMap c).lookup nk = some n →
      channelOpts c nk = .ok n.options) ∧
    (∀ nk, nk ≠ "" → (namespaceMap c).lookup nk = none →
      channelOpts c nk = .error .namespaceNotFound) ∧
    (∀ nk e, channelOpts c nk = .error e →
      e = .namespaceNotFound ∧ nk ≠ "" ∧ (namespaceMap c).lookup nk = none) := by
  refine ⟨by simp [channelOpts], ?_, ?_, ?_⟩
  · intro nk n hne hl
    simp [channelOpts, hne, hl]
  · intro nk hne hl
    simp [channelOpts, hne, hl]
  · intro nk e h
    by_cases hne : nk = ""
    · simp [channelOpts, hne] at h
    · cases hl : (namespaceMap c).lookup nk with
      | some n => simp [channelOpts, hne, hl] at h
      | none =>
        simp [channelOpts, hne, hl] at h
        exact ⟨h.symm, hne, rfl⟩

/-- Witness for C3 at a concrete config. -/
theorem channelOpts_resolution_witness :
    channelOpts cfgEx "public" = .ok ({ publish := true } : ChannelOptions) ∧
    channelOpts cfgEx "missing" = .error .namespaceNotFound :=
  ⟨(channelOpts_resolution cfgEx).2.1 "public" ⟨"public", { publish := true }⟩
      (by decide) (by rfl),
    (channelOpts_resolution cfgEx).2.2.1 "missing" (by decide) (by rfl)⟩

/-- C7 (idempotent connect): on an already-authenticated client a second
connect command succeeds immediately, returns the existing client uid as
the response body, and leaves client and application state unchanged. -/
theorem connect_idempotent (app : AppState) (c : Client) (ps : Params)
    (h : c.isAuthenticated = true) :
    handleConnect app c ps =
      .ok ({ method := "connect", body := .strBody c.uid, error := none }, c, app) := by
  simp [handleConnect, newResponse, h]

/-- Witness for C7. -/
theorem connect_idempotent_witness :
    handleConnect appEx clientAuth Params.emptyP =
      .ok ({ method := "connect", body := .strBody "uid-2", error := none },
        clientAuth, appEx) :=
  connect_idempotent appEx clientAuth Params.emptyP rfl

/-- C4 (amended): on an unauthenticated client every command whose method
is not connect — ping included — is rejected with ErrUnauthorized before
any handler runs, so neither client nor application state can change. -/
theorem new_state_gate (app : AppState) (c : Client) (cmd : clientCommand)
    (hauth : c.isAuthenticated = false) (hm : cmd.method ≠ "connect") :
    handleCommand app c cmd = .error .unauthorized := by
  simp [handleCommand, hauth, hm]

/-- Witness for C4's amended theorem. -/
theorem new_state_gate_witness :
    handleCommand appEx clientNew ⟨"refresh", .emptyP⟩ = .error .unauthorized :=
  new_state_gate appEx clientNew ⟨"refresh", .emptyP⟩ rfl (by decide)

/-- Counterexample to C4 as stated: a ping submitted before connect is
rejected with ErrUnauthorized, although the claim lists ping among the
commands legal in the unauthenticated state. -/
theorem ping_before_connect_rejected :
    handleCommand appEx clientNew ⟨"ping", .emptyP⟩ = .error .unauthorized := rfl

/-- C6: a subscribe command whose channel name exceeds MaxChannelLength
(for a client whose project resolves) is answered with the limit exceeded
error on the response, and has no side effects: the same client record
(channel set included) and the same application state (subscription book
included) come back. -/
theorem subscribe_channel_too_long (app : AppState) (c : Client)
    (cmd : subscribeClientCommand) (p : Project)
    (hp : app.projects.lookup c.project = some p)
    (hch : cmd.channel ≠ "")
    (hlen : (cmd.channel.length : Int) > app.maxChannelLength) :
    handleSubscribe app c (.subscribeP cmd) =
      .ok ({ method := "subscribe", body := .nilBody, error := some .limitExceeded },
        c, app) := by
  simp [handleSubscribe, decodeSubscribe, hp, hch, hlen, newResponse]

/-- Witness for C6. -/
theorem subscribe_channel_too_long_witness :
    handleSubscribe appSmall clientAuth (.subscribeP ⟨"abc", "", "", ""⟩) =
      .ok ({ method := "subscribe", body := .nilBody, error := some .limitExceeded },
        clientAuth, appSmall) :=
  subscribe_channel_too_long appSmall clientAuth ⟨"abc", "", "", ""⟩ ⟨"secret"⟩ rfl
    (by decide) (by decide)

/-- A successful handleConnect answers with method connect. -/
theorem handleConnect_method {app : AppState} {c : Client} {ps : Params}
    {t : Response × Client × AppState} (h : handleConnect app c ps = .ok t) :
    t.1.method = "connect" := by
  simp only [handleConnect, newResponse] at h
  repeat' split at h
  all_goals first
    | exact Except.noConfusion h
    | (injection h with h2; subst h2; rfl)

/-- A successful handleRefresh answers with method refresh. -/
theorem handleRefresh_method {app : AppState} {c : Client} {ps : Params}
    {t : Response × Client × AppState} (h : handleRefresh app c ps = .ok t) :
    t.1.method = "refresh" := by
  simp only [handleRefresh, newResponse] at h
  repeat' split at h
  all_goals first
    | exact Except.noConfusion h
    | (injection h with h2; subst h2; rfl)

/-- A successful handleSubscribe answers with method subscribe. -/
theorem handleSubscribe_method {app : AppState} {c : Client} {ps : Params}
    {t : Response × Client × AppState} (h : handleSubscribe app c ps = .ok t) :
    t.1.method = "subscribe" := by
  simp only [handleSubscribe, newResponse] at h
  repeat' split at h
  all_goals first
    | exact Except.noConfusion h
    | (injection h with h2; subst h2; rfl)

/-- A successful handleUnsubscribe answers with method unsubscribe. -/
theorem handleUnsubscribe_method {app : AppState} {c : Client} {ps : Params}
    {t : Response × Client × AppState} (h : handleUnsubscribe app c ps = .ok t) :
    t.1.method = "unsubscribe" := by
  simp only [handleUnsubscribe, newResponse] at h
  repeat' split at h
  all_goals first
    | exact Except.noConfusion h
    | (injection h with h2; subst h2; rfl)

/-- A successful handlePublish answers with method publish. -/
theorem handlePublish_method {app : AppState} {c : Client} {ps : Params}
    {t : Response × Client × AppState} (h : handlePublish app c ps = .ok t) :
    t.1.method = "publish" := by
  simp only [handlePublish, newResponse] at h
  repeat' split at h
  all_goals first
    | exact Except.noConfusion h
    | (injection h with h2; subst h2; rfl)

/-- handlePing answers with method ping. -/
theorem handlePing_method {app : AppState} {c : Client} {ps : Params}
    {t : Response × Client × AppState} (h : handlePing app c ps = .ok t) :
    t.1.method = "ping" := by
  simp only [handlePing, newResponse] at h
  injection h with h2
  subst h2
  rfl

/-- A successful handlePresence answers with method presence. -/
theorem handlePresence_method {app : AppState} {c : Client} {ps : Params}
    {t : Response × Client × AppState} (h : handlePresence app c ps = .ok t) :
    t.1.method = "presence" := by
  simp only [handlePresence, newResponse] at h
  repeat' split at h
  all_goals first
    | exact Except.noConfusion h
    | (injection h with h2; subst h2; rfl)

/-- A successful handleHistory answers with method history. -/
theorem handleHistory_method {app : AppState} {c : Client} {ps : Params}
    {t : Response × Client × AppState} (h : handleHistory app c ps = .ok t) :
    t.1.method = "history" := by
  simp only [handleHistory, newResponse] at h
  repeat' split at h
  all_goals first
    | exact Except.noConfusion h
    | (injection h with h2; subst h2; rfl)

/-- A successful handleCommand answers with the command's own method. -/
theorem handleCommand_method {app : AppState} {c : Client} {cmd : clientCommand}
    {t : Response × Client × AppState} (h : handleCommand app c cmd = .ok t) :
    t.1.method = cmd.method := by
  unfold handleCommand at h
  repeat' split at h
  all_goals try (rename_i hx; rw [hx])
  all_goals first
    | exact Except.noConfusion h
    | exact handleConnect_method h
    | exact handleRefresh_method h
    | exact handleSubscribe_method h
    | exact handleUnsubscribe_method h
    | exact handlePublish_method h
    | exact handlePing_method h
    | exact handlePresence_method h
    | exact handleHistory_method h

/-- C5 (amended): when every command of the inbound array is handled
without a command-level error, the client sends back one JSON array with
exactly one response per command, in order, the i-th response bearing the
i-th command's method name; a command-level error instead aborts the whole
frame and nothing is sent. -/
theorem handleCommands_responses (cmds : List clientCommand) :
    ∀ (app : AppState) (c : Client) (resps : List Response) (c' : Client)
      (app' : AppState),
    handleCommands app c cmds = .ok (resps, c', app') →
    resps.length = cmds.length ∧
    ∀ i (hi : i < cmds.length) (hj : i < resps.length),
      (resps.get ⟨i, hj⟩).method = (cmds.get ⟨i, hi⟩).method := by
  induction cmds with
  | nil =>
    intro app c resps c' app' h
    simp only [handleCommands, Except.ok.injEq, Prod.mk.injEq] at h
    obtain ⟨hre, -, -⟩ := h
    subst hre
    exact ⟨rfl, fun i hi _ => absurd hi (Nat.not_lt_zero i)⟩
  | cons cmd rest ih =>
    intro app c resps c' app' h
    simp only [handleCommands] at h
    cases hc : handleCommand app c cmd with
    | error e => rw [hc] at h; exact Except.noConfusion h
    | ok t1 =>
      obtain ⟨r1, c1, a1⟩ := t1
      simp only [hc] at h
      cases hrest : handleCommands a1 c1 rest with
      | error e => rw [hrest] at h; exact Except.noConfusion h
      | ok t2 =>
        obtain ⟨rs, c2, a2⟩ := t2
        simp only [hrest, Except.ok.injEq, Prod.mk.injEq] at h
        obtain ⟨hre, -, -⟩ := h
        subst hre
        obtain ⟨ihlen, ihget⟩ := ih a1 c1 rs c2 a2 hrest
        refine ⟨by simp [ihlen], ?_⟩
        intro i hi hj
        cases i with
        | zero => simpa using handleCommand_method hc
        | succ n =>
          simp only [List.get_cons_succ]
          exact ihget n (Nat.lt_of_succ_lt_succ hi) (Nat.lt_of_succ_lt_succ hj)

/-- Witness for C5's amended theorem: a two-command frame yields two
responses carrying the commands' methods. -/
theorem handleCommands_responses_witness :
    ([{ method := "ping", body := .strBody "pong", error := none },
      { method := "ping", body := .strBody "pong", error := none }] :
        List Response).length =
      ([⟨"ping", .emptyP⟩, ⟨"ping", .emptyP⟩] : List clientCommand).length ∧
    ∀ i (hi : i < ([⟨"ping", .emptyP⟩, ⟨"ping", .emptyP⟩] :
        List clientCommand).length)
      (hj : i < ([{ method := "ping", body := .strBody "pong", error := none },
        { method := "ping", body := .strBody "pong", error := none }] :
          List Response).length),
      ((([{ method := "ping", body := .strBody "pong", error := none },
        { method := "ping", body := .strBody "pong", error := none }] :
          List Response)).get ⟨i, hj⟩).method =
        ((([⟨"ping", .emptyP⟩, ⟨"ping", .emptyP⟩] :
          List clientCommand)).get ⟨i, hi⟩).method :=
  handleCommands_responses [⟨"ping", .emptyP⟩, ⟨"ping", .emptyP⟩] appEx clientAuth
    [{ method := "ping", body := .strBody "pong", error := none },
      { method := "ping", body := .strBody "pong", error := none }]
    clientAuth appEx (by rfl)

/-- Counterexample to C5 as stated: a frame that is a JSON array of one
command whose method is unknown produces a command-level error, so no
response array (of length one) is ever sent back. -/
theorem frame_with_bad_method_sends_nothing :
    handleMessage appEx clientAuth (.array [⟨"bogus", .emptyP⟩]) =
      .error .methodNotFound := rfl

/-- C10: an empty info parameter is replaced by the two-character empty
JSON object string before anything else happens, so connect and refresh
behave exactly as if that string had been sent: the token of an empty-info
connect is verified against it and it is what gets stored as the
connection's default info. -/
theorem connect_empty_info_uses_empty_object :
    (∀ (app : AppState) (c : Client) (cmd : connectClientCommand), cmd.info = "" →
      handleConnect app c (.connectP cmd) =
        handleConnect app c (.connectP { cmd with info := "\x7b\x7d" })) ∧
    (∀ (app : AppState) (c : Client) (cmd : refreshClientCommand), cmd.info = "" →
      handleRefresh app c (.refreshP cmd) =
        handleRefresh app c (.refreshP { cmd with info := "\x7b\x7d" })) ∧
    (∀ (app : AppState) (c : Client) (cmd : connectClientCommand) r c' a',
      c.isAuthenticated = false → cmd.info = "" →
      handleConnect app c (.connectP cmd) = .ok (r, c', a') →
      (∃ p, app.projects.lookup cmd.project = some p ∧
        app.checkToken p.secret cmd.project cmd.user cmd.timestamp "\x7b\x7d" cmd.token
          = true) ∧
      c'.info = "\x7b\x7d") := by
  refine ⟨?_, ?_, ?_⟩
  · intro app c cmd hinfo
    obtain ⟨pj, us, ts, inf, tk⟩ := cmd
    simp only at hinfo
    subst hinfo
    simp [handleConnect, decodeConnect]
  · intro app c cmd hinfo
    obtain ⟨pj, us, ts, inf, tk⟩ := cmd
    simp only at hinfo
    subst hinfo
    simp [handleRefresh, decodeRefresh]
  · intro app c cmd r c' a' hauth hinfo h
    obtain ⟨pj, us, ts, inf, tk⟩ := cmd
    simp only at hinfo
    subst hinfo
    simp only [handleConnect, decodeConnect, hauth, Bool.false_eq_true, if_false,
      reduceIte, newResponse] at h
    cases hp : app.projects.lookup pj with
    | none => simp only [hp] at h; exact Except.noConfusion h
    | some p =>
      simp only [hp] at h
      by_cases htk : app.checkToken p.secret pj us ts "\x7b\x7d" tk = true
      · rw [if_pos htk] at h
        cases hts : ts.toInt? with
        | none => simp only [hts] at h; exact Except.noConfusion h
        | some tsv =>
          simp only [hts] at h
          injection h with h2
          simp only [Prod.mk.injEq] at h2
          obtain ⟨-, hc, -⟩ := h2
          subst hc
          exact ⟨⟨p, rfl, htk⟩, rfl⟩
      · rw [if_neg htk] at h
        exact Except.noConfusion h

/-- Witness for C10. -/
theorem connect_empty_info_uses_empty_object_witness :
    handleConnect appEx clientNew (.connectP ⟨"p", "42", "0", "", "tok"⟩) =
      handleConnect appEx clientNew (.connectP ⟨"p", "42", "0", "\x7b\x7d", "tok"⟩) :=
  connect_empty_info_uses_empty_object.1 appEx clientNew ⟨"p", "42", "0", "", "tok"⟩ rfl

end Centrifugo
